import Mathlib

/-!
Verification development for the MCP database server
(`src/mcp-db-server/http.ts`, mirrored by `src/mcp-db-server/stdio.ts`).

The embedding models:
* JSON values and `JSON.stringify(v, null, 2)` (the serializer used by every
  tool handler to build its text payload);
* the three tool handlers `queryDatabase`, `insertRecord`, `getRecords`,
  with the database pool abstracted as an oracle
  `DbOracle : String → List Json → Except String (List Json)` (a `pool.query`
  call either yields rows or throws a driver exception carrying a message).
  Each handler also returns the list of `pool.query` calls it issued, so
  "no retry" is a provable statement about the trace;
* the HTTP session layer of `main`: the `transports` map
  (`Record<string, StreamableHTTPServerTransport>` as an association list from
  session id to a transport-instance identifier), `mcpPostHandler` and
  `mcpDeleteHandler`, with the outcome of the downstream
  `transport.handleRequest` call (success, or a thrown error) and the
  `res.headersSent` flag supplied as parameters.
-/

namespace MCPDB

/-- JSON values as handled by the tool handlers. `undef` models the JavaScript
`undefined` (it arises as `result.rows[0]` when no row is returned);
`JSON.stringify` drops object fields whose value is `undefined`. -/
inductive Json where
  | null
  | undef
  | bool (b : Bool)
  | num (n : Int)
  | str (s : String)
  | arr (elems : List Json)
  | obj (fields : List (String × Json))

def Json.isUndef : Json → Bool
  | .undef => true
  | _ => false

/-- String escaping as performed by `JSON.stringify`. -/
def jsonEscapeChar (c : Char) : String :=
  if c = '"' then "\\\""
  else if c = '\\' then "\\\\"
  else if c = '\n' then "\\n"
  else if c = '\r' then "\\r"
  else if c = '\t' then "\\t"
  else if c = '\x08' then "\\b"
  else if c = '\x0c' then "\\f"
  else if c.toNat < 32 then
    "\\u00" ++ String.mk [Nat.digitChar (c.toNat / 16), Nat.digitChar (c.toNat % 16)]
  else String.singleton c

def jsonQuote (s : String) : String :=
  "\"" ++ String.join (s.toList.map jsonEscapeChar) ++ "\""

def pad (n : Nat) : String := String.mk (List.replicate n ' ')

mutual

/-- Pretty serialization with a two-space indent step, modelling
`JSON.stringify(v, null, 2)` at the indicated current indent. A bare
`undefined` inside an array serializes as `null`. -/
def Json.render : Nat → Json → String
  | _, .null => "null"
  | _, .undef => "null"
  | _, .bool b => if b then "true" else "false"
  | _, .num n => toString n
  | _, .str s => jsonQuote s
  | ind, .arr xs =>
    match xs with
    | [] => "[]"
    | _ :: _ =>
      "[\n" ++ String.intercalate ",\n" (Json.renderElems (ind + 2) xs) ++
        "\n" ++ pad ind ++ "]"
  | ind, .obj fs =>
    match Json.renderFields (ind + 2) fs with
    | [] => "\x7b\x7d"
    | r :: rs =>
      "\x7b\n" ++ String.intercalate ",\n" (r :: rs) ++ "\n" ++ pad ind ++ "\x7d"

def Json.renderElems : Nat → List Json → List String
  | _, [] => []
  | ind, x :: xs => (pad ind ++ Json.render ind x) :: Json.renderElems ind xs

/-- Object fields whose value is `undefined` are dropped by `JSON.stringify`. -/
def Json.renderFields : Nat → List (String × Json) → List String
  | _, [] => []
  | ind, (k, v) :: fs =>
    if v.isUndef then Json.renderFields ind fs
    else (pad ind ++ jsonQuote k ++ ": " ++ Json.render ind v) :: Json.renderFields ind fs

end

/-- Serialization `JSON.stringify(j, null, 2)`. -/
def stringify2 (j : Json) : String := Json.render 0 j

/-- One element of the MCP tool-result `content` array. -/
structure ContentItem where
  type : String
  text : String
deriving DecidableEq

/-- The value returned by a tool handler. -/
structure ToolResult where
  content : List ContentItem
deriving DecidableEq

/-- Outcome of one `pool.query(text, values)` call: the result rows, or the
message of the exception the driver threw. -/
abbrev DbResult := Except String (List Json)

/-- The database pool, abstracted: a map from (SQL text, bound values) to the
outcome `pool.query` produces for that statement. -/
abbrev DbOracle := String → List Json → DbResult

/-- A recorded `pool.query` invocation: the SQL text and the bound values. -/
abbrev DbCall := String × List Json

/-- Tool `queryDatabase` (http.ts lines 28-52): run the statement, wrap rows as
`{success:true,data:rows}`, or the message of the caught exception as
`{success:false,error:msg}`, serialized into one text content item. The second
component is the trace of `pool.query` calls issued. -/
def queryDatabase (db : DbOracle) (query : String) (params : List Json) :
    ToolResult × List DbCall :=
  match db query params with
  | .ok rows =>
    (⟨[⟨"text", stringify2 (.obj [("success", .bool true), ("data", .arr rows)])⟩]⟩,
      [(query, params)])
  | .error msg =>
    (⟨[⟨"text", stringify2 (.obj [("success", .bool false), ("error", .str msg)])⟩]⟩,
      [(query, params)])

/-- The INSERT statement built by `insertRecord` (http.ts lines 63-71): the
template literal includes its newlines and indentation verbatim. -/
def insertQuery (table : String) (data : List (String × Json)) : String :=
  let columns := String.intercalate ", " (data.map (·.1))
  let values := data.map (·.2)
  let placeholders := String.intercalate ", " (values.mapIdx (fun i _ => "$" ++ toString (i + 1)))
  "\n      INSERT INTO " ++ table ++ " (" ++ columns ++ ")\n      VALUES (" ++
    placeholders ++ ")\n      RETURNING *\n    "

/-- Indexing `result.rows[0]`: JavaScript indexing past the end yields `undefined`. -/
def headOrUndef : List Json → Json
  | [] => .undef
  | r :: _ => r

/-- Tool `insertRecord` (http.ts lines 55-89). -/
def insertRecord (db : DbOracle) (table : String) (data : List (String × Json)) :
    ToolResult × List DbCall :=
  let values := data.map (·.2)
  let query := insertQuery table data
  match db query values with
  | .ok rows =>
    (⟨[⟨"text", stringify2 (.obj [("success", .bool true), ("data", headOrUndef rows)])⟩]⟩,
      [(query, values)])
  | .error msg =>
    (⟨[⟨"text", stringify2 (.obj [("success", .bool false), ("error", .str msg)])⟩]⟩,
      [(query, values)])

/-- The SELECT statement and bound values built by `getRecords`
(http.ts lines 101-117). `Object.entries(where)` is modelled as the
association list `whereMap` in its key order. The JavaScript guard
`if (limit)` is falsy for an absent limit and for `0` alike, so the LIMIT
placeholder is appended only for a present, nonzero limit. -/
def getRecordsQuery (table : String) (whereMap : List (String × Json))
    (limit : Option Int) : String × List Json :=
  let conditions := whereMap.enum.map (fun p => p.2.1 ++ " = $" ++ toString (p.1 + 1))
  let values := whereMap.map (·.2)
  let q :=
    if conditions.length > 0 then
      "SELECT * FROM " ++ table ++ " WHERE " ++ String.intercalate " AND " conditions
    else
      "SELECT * FROM " ++ table
  match limit with
  | some n =>
    if n = 0 then (q, values)
    else (q ++ " LIMIT $" ++ toString (values.length + 1), values ++ [.num n])
  | none => (q, values)

/-- Tool `getRecords` (http.ts lines 92-135). -/
def getRecords (db : DbOracle) (table : String) (whereMap : List (String × Json))
    (limit : Option Int) : ToolResult × List DbCall :=
  let qv := getRecordsQuery table whereMap limit
  match db qv.1 qv.2 with
  | .ok rows =>
    (⟨[⟨"text", stringify2 (.obj [("success", .bool true), ("data", .arr rows)])⟩]⟩,
      [qv])
  | .error msg =>
    (⟨[⟨"text", stringify2 (.obj [("success", .bool false), ("error", .str msg)])⟩]⟩,
      [qv])

/-- The uniform success envelope `{content:[{type:"text",text:
JSON.stringify({success:true,data:...},null,2)}]}`. -/
def successEnvelope (data : Json) : ToolResult :=
  ⟨[⟨"text", stringify2 (.obj [("success", .bool true), ("data", data)])⟩]⟩

/-- The uniform failure envelope `{content:[{type:"text",text:
JSON.stringify({success:false,error:...},null,2)}]}`. -/
def failureEnvelope (msg : String) : ToolResult :=
  ⟨[⟨"text", stringify2 (.obj [("success", .bool false), ("error", .str msg)])⟩]⟩

/-! ## Session transport layer (`main`, http.ts lines 138-471) -/

/-- Server state inside `main`: the `transports` record
(`Record<string, StreamableHTTPServerTransport>`) as an association list from
session id to a transport-instance identifier, plus a counter supplying the
identity of the next `new StreamableHTTPServerTransport(...)`. -/
structure ServerState where
  transports : List (String × Nat)
  nextId : Nat
deriving DecidableEq

/-- JavaScript `header || fallback` on an optional string header: an absent
header and the empty string are both falsy. -/
def headerOr (h : Option String) (fallback : String) : String :=
  match h with
  | none => fallback
  | some s => if s = "" then fallback else s

/-- Observable outcome of one `mcpPostHandler` invocation. -/
inductive PostOutcome where
  | delegated (sessionId : String) (transportId : Nat)
  | internalError (status : Nat) (code : Int) (message : String)
  | errorLoggedOnly
deriving DecidableEq

/-- Handler `mcpPostHandler` (http.ts lines 149-176). The session id is the
`mcp-session-id` header when present (and truthy), else a fresh `randomUUID()`
supplied as `uuid`. If the id is unmapped, a new transport is created and
registered — the handler never inspects the request method (` _method`). The
downstream `transport.handleRequest` either succeeds or throws
(`handleRequestThrows`); a thrown error is caught and, when `res.headersSent`
is still false, answered with the 500 JSON-RPC envelope `{code:-32603,
message:`Internal server error`}`, else only logged. -/
def mcpPostHandler (st : ServerState) (header : Option String) (uuid : String)
    ( _method : String) (handleRequestThrows : Bool) (headersSent : Bool) :
    ServerState × PostOutcome :=
  let sessionId := headerOr header uuid
  let stt :=
    match st.transports.lookup sessionId with
    | some t => (st, t)
    | none => (⟨(sessionId, st.nextId) :: st.transports, st.nextId + 1⟩, st.nextId)
  if handleRequestThrows then
    if headersSent then (stt.1, .errorLoggedOnly)
    else (stt.1, .internalError 500 (-32603) "Internal server error")
  else (stt.1, .delegated sessionId stt.2)

/-- Observable outcome of one `mcpDeleteHandler` invocation. -/
inductive DeleteOutcome where
  | closedAndRemoved (sessionId : String) (transportId : Nat)
  | invalidSession (status : Nat) (body : String)
  | terminationError (status : Nat) (body : String)
  | errorLoggedOnly
deriving DecidableEq

/-- Handler `mcpDeleteHandler` (http.ts lines 193-212). A missing, empty or unmapped
session id is answered 400 `Invalid or missing session ID`. Otherwise the
`handleRequest` call of the transport (the close/cleanup delegation) runs; only when it
returns normally is the mapping deleted. A thrown close error is caught: the
`delete` is skipped and, when headers were not yet sent, a 500
`Error processing session termination` is returned. -/
def mcpDeleteHandler (st : ServerState) (header : Option String)
    (closeThrows : Bool) (headersSent : Bool) : ServerState × DeleteOutcome :=
  match header with
  | none => (st, .invalidSession 400 "Invalid or missing session ID")
  | some sessionId =>
    if sessionId = "" then (st, .invalidSession 400 "Invalid or missing session ID")
    else
      match st.transports.lookup sessionId with
      | none => (st, .invalidSession 400 "Invalid or missing session ID")
      | some t =>
        if closeThrows then
          (st,
            if headersSent then .errorLoggedOnly
            else .terminationError 500 "Error processing session termination")
        else
          (⟨st.transports.filter (fun p => p.1 != sessionId), st.nextId⟩,
            .closedAndRemoved sessionId t)

/-- Outcome of `main` itself (http.ts lines 462-471): `app.listen` either
starts the server or the startup failure propagates to `main().catch`, which
calls `process.exit(1)`. Request-handler errors are caught inside the
handlers and never reach this path. -/
inductive MainOutcome where
  | listening (port : Nat)
  | exitProcess (code : Nat)
deriving DecidableEq

def main (port : Nat) (listenThrows : Bool) : MainOutcome :=
  if listenThrows then .exitProcess 1 else .listening port

/-- The session-map invariant "at most one live transport instance per session
identifier": the keys of the transports map are pairwise distinct. -/
def keysNodup (st : ServerState) : Prop :=
  (st.transports.map Prod.fst).Nodup

/-! ## Helper lemmas about the transports map -/

theorem lookup_prepend_self (l : List (String × Nat)) (k : String) (v : Nat) :
    ((k, v) :: l).lookup k = some v := by
  simp [List.lookup]

theorem lookup_eq_none_not_mem {l : List (String × Nat)} {k : String}
    (h : l.lookup k = none) : k ∉ l.map Prod.fst := by
  induction l with
  | nil => simp
  | cons a l ih =>
    rw [List.lookup] at h
    by_cases hk : k == a.1
    · rw [hk] at h
      exact absurd h (by simp)
    · rw [Bool.not_eq_true] at hk
      rw [hk] at h
      simp only [List.map_cons, List.mem_cons]
      rintro (h1 | h2)
      · exact absurd (beq_iff_eq.mpr h1) (by simp [hk])
      · exact ih h h2

theorem lookup_cons_eq (a1 : String) (a2 : Nat) (l : List (String × Nat)) (k : String) :
    (((a1, a2) :: l).lookup k) = if k = a1 then some a2 else l.lookup k := by
  by_cases h : k = a1
  · simp [List.lookup, h]
  · have hb : (k == a1) = false := beq_eq_false_iff_ne.mpr h
    simp [List.lookup, hb, h]

theorem lookup_filter_ne {l : List (String × Nat)} {s k : String} (hk : k ≠ s) :
    (l.filter (fun p => p.1 != s)).lookup k = l.lookup k := by
  induction l with
  | nil => rfl
  | cons a l ih =>
    obtain ⟨a1, a2⟩ := a
    by_cases ha : a1 = s
    · have h2 : ¬ k = a1 := by rw [ha]; exact hk
      simp [List.filter_cons, ha, lookup_cons_eq, h2, hk, ih]
    · simp [List.filter_cons, ha, lookup_cons_eq, ih]

theorem lookup_filter_self (l : List (String × Nat)) (s : String) :
    (l.filter (fun p => p.1 != s)).lookup s = none := by
  induction l with
  | nil => rfl
  | cons a l ih =>
    obtain ⟨a1, a2⟩ := a
    by_cases ha : a1 = s
    · simp [List.filter_cons, ha, ih]
    · have h2 : ¬ s = a1 := fun h => ha h.symm
      simp [List.filter_cons, ha, lookup_cons_eq, h2, ih]

theorem keysNodup_after_insert {st : ServerState} {k : String}
    (hnd : keysNodup st) (h : st.transports.lookup k = none) :
    keysNodup ⟨(k, st.nextId) :: st.transports, st.nextId + 1⟩ := by
  unfold keysNodup at *
  simp only [List.map_cons]
  exact List.nodup_cons.mpr ⟨lookup_eq_none_not_mem h, hnd⟩

theorem post_preserves_keysNodup (st : ServerState) (header : Option String)
    (uuid method : String) (th hs : Bool) (hnd : keysNodup st) :
    keysNodup (mcpPostHandler st header uuid method th hs).1 := by
  cases hl : st.transports.lookup (headerOr header uuid) with
  | some t =>
    cases th <;> cases hs <;> simpa [mcpPostHandler, hl] using hnd
  | none =>
    cases th <;> cases hs <;>
      simpa [mcpPostHandler, hl] using keysNodup_after_insert hnd hl

/-! ## Claims -/

/-- C1 — counterexample. The claim asserts that a POST whose `mcp-session-id`
header carries an unmapped identifier and whose method is not
session-establishing (here `"tools/list"`) is rejected with a
missing-or-invalid-session error and that no transport is registered. On the
code, starting from an empty transports map, that very request instead
registers a fresh transport for `"s"` and delegates to it. -/
theorem post_unmapped_nonestablishing_counterexample :
    (mcpPostHandler ⟨[], 0⟩ (some "s") "3f2a" "tools/list" false false).2
        = PostOutcome.delegated "s" 0
    ∧ (mcpPostHandler ⟨[], 0⟩ (some "s") "3f2a" "tools/list" false false).1.transports.lookup "s"
        = some 0 := by
  constructor <;> rfl

/-- C1 — amended. For every POST /mcp request whose `mcp-session-id` header is
present (and non-empty) but not currently mapped, `mcpPostHandler` — without
ever inspecting the request method — creates and registers a new transport
instance keyed by that identifier, and (when the downstream dispatch does not
throw) delegates the request to that new instance; the POST handler never
fails a request with a missing-or-invalid-session error. -/
theorem post_unmapped_creates_for_any_method (st : ServerState)
    (s uuid method : String) (hthrow hsent : Bool)
    (hne : s ≠ "") (hmap : st.transports.lookup s = none) :
    ((mcpPostHandler st (some s) uuid method hthrow hsent).1.transports.lookup s
        = some st.nextId)
    ∧ (hthrow = false →
       (mcpPostHandler st (some s) uuid method hthrow hsent).2
          = PostOutcome.delegated s st.nextId) := by
  unfold mcpPostHandler headerOr
  simp only [if_neg hne, hmap]
  cases hthrow <;> cases hsent <;>
    simp [lookup_prepend_self]

/-- C1 — witness for the amended theorem at a concrete input. -/
theorem post_unmapped_creates_for_any_method_witness :
    ((mcpPostHandler ⟨[], 7⟩ (some "sess-1") "u" "tools/list" false false).1.transports.lookup "sess-1"
        = some 7)
    ∧ ((mcpPostHandler ⟨[], 7⟩ (some "sess-1") "u" "tools/list" false false).2
        = PostOutcome.delegated "sess-1" 7) := by
  have h := post_unmapped_creates_for_any_method ⟨[], 7⟩ "sess-1" "u" "tools/list"
    false false (by decide) rfl
  exact ⟨h.1, h.2 rfl⟩

/-- C2 — confirmed. A POST bearing an already-mapped session identifier never
replaces the mapping: the server state is unchanged, the existing transport
instance is the one the request is delegated to, and (independently) every
POST preserves distinctness of the session identifiers in the map, so at most
one live transport instance exists per identifier. -/
theorem post_mapped_session_reused (st : ServerState) (s uuid method : String)
    (t : Nat) (hthrow hsent : Bool)
    (hne : s ≠ "") (hmap : st.transports.lookup s = some t) :
    (mcpPostHandler st (some s) uuid method hthrow hsent).1 = st
    ∧ (hthrow = false →
       (mcpPostHandler st (some s) uuid method hthrow hsent).2
          = PostOutcome.delegated s t)
    ∧ (∀ (st' : ServerState) (header : Option String) (uuid' method' : String)
         (th hs : Bool), keysNodup st' →
         keysNodup (mcpPostHandler st' header uuid' method' th hs).1) := by
  refine ⟨?_, ?_, fun st' header uuid' method' th hs hnd =>
    post_preserves_keysNodup st' header uuid' method' th hs hnd⟩
  · unfold mcpPostHandler headerOr
    simp only [if_neg hne, hmap]
    cases hthrow <;> cases hsent <;> simp
  · intro h
    subst h
    unfold mcpPostHandler headerOr
    simp only [if_neg hne, hmap]
    rfl

/-- C2 — witness at a concrete input. -/
theorem post_mapped_session_reused_witness :
    (mcpPostHandler ⟨[("sess-1", 4)], 9⟩ (some "sess-1") "u" "tools/call" false false).1
        = ⟨[("sess-1", 4)], 9⟩
    ∧ (mcpPostHandler ⟨[("sess-1", 4)], 9⟩ (some "sess-1") "u" "tools/call" false false).2
        = PostOutcome.delegated "sess-1" 4 := by
  have h := post_mapped_session_reused ⟨[("sess-1", 4)], 9⟩ "sess-1" "u" "tools/call"
    4 false false (by decide) (by rfl)
  exact ⟨h.1, h.2.1 rfl⟩

/-- C4 — confirmed. For a mapped session identifier, the first DELETE (with a
clean close) succeeds and removes the mapping; an immediately repeated DELETE
for the same identifier is answered with the 400 client error
`Invalid or missing session ID`; and a DELETE for an identifier that was
never mapped gets the same 400 client error while leaving the state
untouched — never a silent success. -/
theorem terminate_twice_idempotence (st : ServerState) (s : String) (t : Nat)
    (hsent hsent2 cf2 : Bool)
    (hne : s ≠ "") (hmap : st.transports.lookup s = some t) :
    (mcpDeleteHandler st (some s) false hsent).2 = DeleteOutcome.closedAndRemoved s t
    ∧ (mcpDeleteHandler st (some s) false hsent).1.transports.lookup s = none
    ∧ (mcpDeleteHandler (mcpDeleteHandler st (some s) false hsent).1 (some s) cf2 hsent2).2
        = DeleteOutcome.invalidSession 400 "Invalid or missing session ID"
    ∧ (∀ u : String, u ≠ "" → st.transports.lookup u = none →
        mcpDeleteHandler st (some u) cf2 hsent2
          = (st, DeleteOutcome.invalidSession 400 "Invalid or missing session ID")) := by
  have hdel : mcpDeleteHandler st (some s) false hsent
      = (⟨st.transports.filter (fun p => p.1 != s), st.nextId⟩,
         DeleteOutcome.closedAndRemoved s t) := by
    simp [mcpDeleteHandler, hne, hmap]
  refine ⟨?_, ?_, ?_, ?_⟩
  · rw [hdel]
  · rw [hdel]
    exact lookup_filter_self st.transports s
  · rw [hdel]
    simp [mcpDeleteHandler, hne, lookup_filter_self]
  · intro u hu hnone
    simp [mcpDeleteHandler, hu, hnone]

/-- C4 — witness at a concrete two-session state. -/
theorem terminate_twice_idempotence_witness :
    (mcpDeleteHandler ⟨[("a", 0), ("b", 1)], 2⟩ (some "a") false false).2
        = DeleteOutcome.closedAndRemoved "a" 0
    ∧ (mcpDeleteHandler ⟨[("a", 0), ("b", 1)], 2⟩ (some "a") false false).1.transports.lookup "a"
        = none
    ∧ (mcpDeleteHandler
        (mcpDeleteHandler ⟨[("a", 0), ("b", 1)], 2⟩ (some "a") false false).1
        (some "a") false false).2
        = DeleteOutcome.invalidSession 400 "Invalid or missing session ID"
    ∧ mcpDeleteHandler ⟨[("a", 0), ("b", 1)], 2⟩ (some "c") false false
        = (⟨[("a", 0), ("b", 1)], 2⟩,
           DeleteOutcome.invalidSession 400 "Invalid or missing session ID") := by
  have h := terminate_twice_idempotence ⟨[("a", 0), ("b", 1)], 2⟩ "a" 0 false false false
    (by decide) (by rfl)
  exact ⟨h.1, h.2.1, h.2.2.1, h.2.2.2 "c" (by decide) (by rfl)⟩

/-- C7 — confirmed. When the downstream dispatch throws and the response has
not started (`headersSent = false`), `mcpPostHandler` answers with the 500
JSON-RPC envelope carrying the reserved internal-error code −32603; and `main`
aborts the process only on a startup (listen) failure — handler errors are
caught inside the handlers and never reach the `main().catch` exit path. -/
theorem post_internal_error_and_no_fatal (st : ServerState) (header : Option String)
    (uuid method : String) :
    (mcpPostHandler st header uuid method true false).2
        = PostOutcome.internalError 500 (-32603) "Internal server error"
    ∧ (∀ port : Nat, main port false = MainOutcome.listening port)
    ∧ (∀ port : Nat, main port true = MainOutcome.exitProcess 1) := by
  refine ⟨?_, fun port => rfl, fun port => rfl⟩
  cases hl : st.transports.lookup (headerOr header uuid) <;>
    simp [mcpPostHandler, hl]

/-- C10 — confirmed. If the close/cleanup call of the transport throws during a
DELETE, the `delete transports[sessionId]` line is never reached: the state is
unchanged and the session stays mapped to its instance. Moreover no DELETE
invocation, successful or failed, ever changes the mapping of any identifier
other than the one named by its own `mcp-session-id` header. -/
theorem delete_close_failure_keeps_mapping (st : ServerState) (s : String) (t : Nat)
    (hsent : Bool) (hne : s ≠ "") (hmap : st.transports.lookup s = some t) :
    (mcpDeleteHandler st (some s) true hsent).1 = st
    ∧ (mcpDeleteHandler st (some s) true hsent).1.transports.lookup s = some t
    ∧ (∀ (st' : ServerState) (header : Option String) (cf hs : Bool) (k : String),
        header ≠ some k →
        (mcpDeleteHandler st' header cf hs).1.transports.lookup k
          = st'.transports.lookup k) := by
  have hfst : (mcpDeleteHandler st (some s) true hsent).1 = st := by
    simp [mcpDeleteHandler, hne, hmap]
  refine ⟨hfst, by rw [hfst]; exact hmap, ?_⟩
  intro st' header cf hs k hk
  cases header with
  | none => rfl
  | some sid =>
    have hks : k ≠ sid := fun h => hk (by rw [h])
    by_cases hsid : sid = ""
    · simp [mcpDeleteHandler, hsid]
    · cases hl : st'.transports.lookup sid with
      | none => simp [mcpDeleteHandler, hsid, hl]
      | some t' =>
        cases cf with
        | false => simp [mcpDeleteHandler, hsid, hl, lookup_filter_ne hks]
        | true => simp [mcpDeleteHandler, hsid, hl]

/-- C10 — witness: close failure on session `"a"` leaves the whole map (and in
particular `"a"`) intact, and a successful termination of `"a"` leaves the
unrelated session `"b"` untouched. -/
theorem delete_close_failure_keeps_mapping_witness :
    (mcpDeleteHandler ⟨[("a", 0), ("b", 1)], 2⟩ (some "a") true false).1
        = ⟨[("a", 0), ("b", 1)], 2⟩
    ∧ (mcpDeleteHandler ⟨[("a", 0), ("b", 1)], 2⟩ (some "a") true false).1.transports.lookup "a"
        = some 0
    ∧ (mcpDeleteHandler ⟨[("a", 0), ("b", 1)], 2⟩ (some "a") false false).1.transports.lookup "b"
        = some 1 := by
  have h := delete_close_failure_keeps_mapping ⟨[("a", 0), ("b", 1)], 2⟩ "a" 0 false
    (by decide) (by rfl)
  exact ⟨h.1, h.2.1,
    (h.2.2 ⟨[("a", 0), ("b", 1)], 2⟩ (some "a") false false "b" (by decide)).trans (by rfl)⟩

/-- A tool result has the uniform envelope shape: one `content` item of type
`"text"` whose text serializes a single inner JSON object that is exactly one
of `{success:true, data:...}` and `{success:false, error:"..."}`. -/
def isUniformEnvelope (r : ToolResult) : Prop :=
  ∃ inner : Json,
    r = ⟨[⟨"text", stringify2 inner⟩]⟩
    ∧ (((∃ d, inner = Json.obj [("success", .bool true), ("data", d)])
        ∧ ¬ ∃ e, inner = Json.obj [("success", .bool false), ("error", .str e)])
      ∨ ((∃ e, inner = Json.obj [("success", .bool false), ("error", .str e)])
        ∧ ¬ ∃ d, inner = Json.obj [("success", .bool true), ("data", d)]))

/-- C5 — confirmed. For every input and every database outcome, each of the
three tools wraps its result as `{content:[{type:"text",text:<JSON string>}]}`
whose inner JSON is exactly one of `{success:true,data:...}` and
`{success:false,error:<message>}` — the same shape for all three tools. -/
theorem tools_uniform_envelope (db : DbOracle) (q : String) (ps : List Json)
    (table : String) (data whereMap : List (String × Json)) (limit : Option Int) :
    isUniformEnvelope (queryDatabase db q ps).1
    ∧ isUniformEnvelope (insertRecord db table data).1
    ∧ isUniformEnvelope (getRecords db table whereMap limit).1 := by
  refine ⟨?_, ?_, ?_⟩
  · cases hl : db q ps with
    | ok rows =>
      have h1 : (queryDatabase db q ps).1
          = ⟨[⟨"text", stringify2 (.obj [("success", .bool true), ("data", .arr rows)])⟩]⟩ := by
        simp [queryDatabase, hl]
      exact ⟨_, h1, Or.inl ⟨⟨_, rfl⟩, by rintro ⟨e, h⟩; simp at h⟩⟩
    | error msg =>
      have h1 : (queryDatabase db q ps).1
          = ⟨[⟨"text", stringify2 (.obj [("success", .bool false), ("error", .str msg)])⟩]⟩ := by
        simp [queryDatabase, hl]
      exact ⟨_, h1, Or.inr ⟨⟨_, rfl⟩, by rintro ⟨d, h⟩; simp at h⟩⟩
  · cases hl : db (insertQuery table data) (data.map (·.2)) with
    | ok rows =>
      have h1 : (insertRecord db table data).1
          = ⟨[⟨"text", stringify2 (.obj [("success", .bool true), ("data", headOrUndef rows)])⟩]⟩ := by
        simp [insertRecord, hl]
      exact ⟨_, h1, Or.inl ⟨⟨_, rfl⟩, by rintro ⟨e, h⟩; simp at h⟩⟩
    | error msg =>
      have h1 : (insertRecord db table data).1
          = ⟨[⟨"text", stringify2 (.obj [("success", .bool false), ("error", .str msg)])⟩]⟩ := by
        simp [insertRecord, hl]
      exact ⟨_, h1, Or.inr ⟨⟨_, rfl⟩, by rintro ⟨d, h⟩; simp at h⟩⟩
  · cases hl : db (getRecordsQuery table whereMap limit).1 (getRecordsQuery table whereMap limit).2 with
    | ok rows =>
      have h1 : (getRecords db table whereMap limit).1
          = ⟨[⟨"text", stringify2 (.obj [("success", .bool true), ("data", .arr rows)])⟩]⟩ := by
        simp [getRecords, hl]
      exact ⟨_, h1, Or.inl ⟨⟨_, rfl⟩, by rintro ⟨e, h⟩; simp at h⟩⟩
    | error msg =>
      have h1 : (getRecords db table whereMap limit).1
          = ⟨[⟨"text", stringify2 (.obj [("success", .bool false), ("error", .str msg)])⟩]⟩ := by
        simp [getRecords, hl]
      exact ⟨_, h1, Or.inr ⟨⟨_, rfl⟩, by rintro ⟨d, h⟩; simp at h⟩⟩

/-- C6 — confirmed. A database-driver exception inside any of the three tools
is caught and rendered as a normal tool result whose payload is
`{success:false, error:<the driver message, verbatim>}` — not a thrown
transport error — and the trace of `pool.query` calls the tool issued is
exactly the one original statement: no tool retries. -/
theorem tool_errors_funneled (db : DbOracle) (q : String) (ps : List Json)
    (table : String) (data whereMap : List (String × Json)) (limit : Option Int) :
    (∀ e, db q ps = .error e →
      (queryDatabase db q ps).1 = failureEnvelope e
      ∧ (queryDatabase db q ps).2 = [(q, ps)])
    ∧ (∀ e, db (insertQuery table data) (data.map (·.2)) = .error e →
      (insertRecord db table data).1 = failureEnvelope e
      ∧ (insertRecord db table data).2 = [(insertQuery table data, data.map (·.2))])
    ∧ (∀ e, db (getRecordsQuery table whereMap limit).1 (getRecordsQuery table whereMap limit).2
          = .error e →
      (getRecords db table whereMap limit).1 = failureEnvelope e
      ∧ (getRecords db table whereMap limit).2 = [getRecordsQuery table whereMap limit]) := by
  refine ⟨fun e he => ?_, fun e he => ?_, fun e he => ?_⟩
  · constructor <;> simp [queryDatabase, he, failureEnvelope]
  · constructor <;> simp [insertRecord, he, failureEnvelope]
  · constructor <;> simp [getRecords, he, failureEnvelope]

/-- An always-failing database oracle: every statement raises a driver error. -/
def failingDb : DbOracle := fun _ _ => .error "relation \"nope\" does not exist"

/-- C6 — witness: a failing statement in each of the three tools yields the
failure envelope with the driver message and a one-element call trace. -/
theorem tool_errors_funneled_witness :
    ((queryDatabase failingDb "SELEC 1" []).1
        = failureEnvelope "relation \"nope\" does not exist"
     ∧ (queryDatabase failingDb "SELEC 1" []).2 = [("SELEC 1", [])])
    ∧ ((insertRecord failingDb "nope" [("x", .num 1)]).1
        = failureEnvelope "relation \"nope\" does not exist"
     ∧ (insertRecord failingDb "nope" [("x", .num 1)]).2
        = [(insertQuery "nope" [("x", .num 1)], [Json.num 1])])
    ∧ ((getRecords failingDb "nope" [] none).1
        = failureEnvelope "relation \"nope\" does not exist"
     ∧ (getRecords failingDb "nope" [] none).2 = [getRecordsQuery "nope" [] none]) := by
  have h := tool_errors_funneled failingDb "SELEC 1" [] "nope" [("x", .num 1)] [] none
  exact ⟨h.1 _ rfl, h.2.1 _ rfl, h.2.2 _ rfl⟩

/-- Two rows of a demonstration `employees` table. -/
def demoRows : List Json :=
  [Json.obj [("id", .num 1), ("name", .str "Alice")],
   Json.obj [("id", .num 2), ("name", .str "Bob")]]

/-- A database oracle holding the two-row `employees` table: it answers the
plain `SELECT * FROM employees` (no bound values) with both rows and raises a
driver error for anything else. -/
def demoDb : DbOracle := fun q vals =>
  if q = "SELECT * FROM employees" then
    if vals.isEmpty then .ok demoRows else .error "bind parameters not expected"
  else .error "relation does not exist"

/-- C3 — the code violates the claim. The guard `if (limit)` is falsy at `0`,
so `getRecords` with `limit = 0` emits no LIMIT clause at all: it is
indistinguishable from `getRecords` with no limit, and on the two-row table it
returns both rows with `success:true` — not the empty row list the claim (and
the description in the input schema itself "Maximum number of records to return")
requires. -/
theorem getRecords_limit_zero_returns_all_rows :
    (∀ (db : DbOracle) (table : String) (whereMap : List (String × Json)),
      getRecords db table whereMap (some 0) = getRecords db table whereMap none)
    ∧ (getRecords demoDb "employees" [] (some 0)).1 = successEnvelope (.arr demoRows)
    ∧ (getRecords demoDb "employees" [] (some 0)).1 ≠ successEnvelope (.arr []) := by
  refine ⟨fun db table whereMap => rfl, by rfl, by decide⟩

/-- C8 — the SELECT builder as the claim words it: a `SELECT * FROM <table>`
whose WHERE clause (absent for an empty mapping) is the AND-conjunction of one
equality condition per key of the where-mapping, placeholders numbered in key
order, the bound values being the values of the mapping in the same order, and an
optional trailing LIMIT placeholder (appended exactly when a nonzero limit is
supplied — the presence test of the code) binding the limit as the last value. -/
def getRecordsQuerySpec (table : String) (whereMap : List (String × Json))
    (limit : Option Int) : String × List Json :=
  let conds := whereMap.mapIdx (fun i p => p.1 ++ " = $" ++ toString (i + 1))
  let whereClause :=
    if whereMap.isEmpty then "" else " WHERE " ++ String.intercalate " AND " conds
  let vals := whereMap.map (·.2)
  match limit with
  | some n =>
    if n = 0 then ("SELECT * FROM " ++ table ++ whereClause, vals)
    else ("SELECT * FROM " ++ table ++ whereClause ++ " LIMIT $"
            ++ toString (whereMap.length + 1),
          vals ++ [.num n])
  | none => ("SELECT * FROM " ++ table ++ whereClause, vals)

/-- C8 — confirmed. The statement `getRecords` builds coincides with the description
in the claim (`getRecordsQuerySpec`), and on success the tool returns
exactly the rows the database produced for that statement. -/
theorem getRecords_select_builder (table : String) (whereMap : List (String × Json))
    (limit : Option Int) :
    getRecordsQuery table whereMap limit = getRecordsQuerySpec table whereMap limit
    ∧ (∀ (db : DbOracle) (rows : List Json),
        db (getRecordsQuery table whereMap limit).1 (getRecordsQuery table whereMap limit).2
            = .ok rows →
        (getRecords db table whereMap limit).1 = successEnvelope (.arr rows)) := by
  constructor
  · have hconds : whereMap.enum.map (fun p => p.2.1 ++ " = $" ++ toString (p.1 + 1))
        = whereMap.mapIdx (fun i p => p.1 ++ " = $" ++ toString (i + 1)) := by
      rw [List.mapIdx_eq_enum_map]; rfl
    simp only [getRecordsQuery, getRecordsQuerySpec, hconds]
    cases whereMap with
    | nil =>
      cases limit with
      | none => simp [String.append_empty]
      | some n =>
        by_cases hn : n = 0 <;> simp [hn, String.append_empty]
    | cons w ws =>
      have hne : ¬ ((w :: ws).mapIdx (fun i p => p.1 ++ " = $" ++ toString (i + 1))).length = 0 := by
        simp [List.mapIdx_eq_enum_map]
      cases limit with
      | none =>
        simp [List.length_pos, hne, String.append_assoc]
      | some n =>
        by_cases hn : n = 0 <;>
          simp [hn, List.length_pos, hne, String.append_assoc]
  · intro db rows hdb
    simp [getRecords, hdb, successEnvelope]

/-- C8 — witness: a two-condition where-mapping with a limit of 5. -/
theorem getRecords_select_builder_witness :
    getRecordsQuery "employees" [("department", .str "Sales"), ("salary", .num 50000)] (some 5)
      = ("SELECT * FROM employees WHERE department = $1 AND salary = $2 LIMIT $3",
         [.str "Sales", .num 50000, .num 5])
    ∧ (getRecords demoDb "employees" [] none).1 = successEnvelope (.arr demoRows) := by
  constructor
  · exact ((getRecords_select_builder "employees"
      [("department", .str "Sales"), ("salary", .num 50000)] (some 5)).1).trans (by rfl)
  · exact (getRecords_select_builder "employees" [] none).2 demoDb demoRows (by rfl)

/-- C9 — the INSERT builder as the claim words it: column list = the keys of the
mapping in order, positional placeholders `$1..$n`, bound values = the values of the
mapping in the same order (the statement text keeps the whitespace of the
template literal verbatim). -/
def insertQuerySpec (table : String) (data : List (String × Json)) : String :=
  "\n      INSERT INTO " ++ table ++ " ("
    ++ String.intercalate ", " (data.map (·.1))
    ++ ")\n      VALUES ("
    ++ String.intercalate ", "
        ((List.range data.length).map (fun i => "$" ++ toString (i + 1)))
    ++ ")\n      RETURNING *\n    "

/-- C9 — confirmed. `insertRecord` builds the single parameterized INSERT
described by the claim (`insertQuerySpec`), binds the values of the mapping in key
order, and — when the database answers with the single inserted row, as
`RETURNING *` on a one-row INSERT does — returns exactly that row as the
success payload. -/
theorem insertRecord_builder (table : String) (data : List (String × Json)) :
    insertQuery table data = insertQuerySpec table data
    ∧ (∀ (db : DbOracle) (r : Json),
        db (insertQuery table data) (data.map (·.2)) = .ok [r] →
        (insertRecord db table data).1 = successEnvelope r)
    ∧ (∀ db : DbOracle,
        (insertRecord db table data).2 = [(insertQuery table data, data.map (·.2))]) := by
  refine ⟨?_, fun db r hdb => ?_, fun db => ?_⟩
  · have hph : (data.map (·.2)).mapIdx (fun i _ => "$" ++ toString (i + 1))
        = (List.range data.length).map (fun i => "$" ++ toString (i + 1)) := by
      rw [List.mapIdx_eq_enum_map,
        show data.length = (data.map (fun x => x.2)).length from (List.length_map _ _).symm,
        ← List.enum_map_fst (data.map (fun x => x.2)), List.map_map]
      rfl
    simp only [insertQuery, insertQuerySpec, hph]
  · simp [insertRecord, hdb, successEnvelope, headOrUndef]
  · cases hl : db (insertQuery table data) (data.map (·.2)) <;>
      simp [insertRecord, hl]

/-- C9 — witness: a two-column insert, with the database returning the one
inserted row extended by its generated `id` column. -/
theorem insertRecord_builder_witness :
    insertQuery "employees" [("name", .str "Carol"), ("salary", .num 60000)]
      = "\n      INSERT INTO employees (name, salary)\n      VALUES ($1, $2)\n      RETURNING *\n    "
    ∧ (insertRecord
        (fun _ _ => .ok [Json.obj [("id", .num 3), ("name", .str "Carol"), ("salary", .num 60000)]])
        "employees" [("name", .str "Carol"), ("salary", .num 60000)]).1
      = successEnvelope (Json.obj [("id", .num 3), ("name", .str "Carol"), ("salary", .num 60000)]) := by
  constructor
  · exact ((insertRecord_builder "employees" [("name", .str "Carol"), ("salary", .num 60000)]).1).trans
      (by rfl)
  · exact (insertRecord_builder "employees" [("name", .str "Carol"), ("salary", .num 60000)]).2.1
      (fun _ _ => .ok [Json.obj [("id", .num 3), ("name", .str "Carol"), ("salary", .num 60000)]])
      (Json.obj [("id", .num 3), ("name", .str "Carol"), ("salary", .num 60000)]) rfl

end MCPDB
